import Mathlib

/-!
Shallow embedding of the drift-investigation core of the genomic-pipeline
repository (backend/analysis/{metrics,detectors,hypotheses,probes,config}.py
and backend/api/main.py), with theorems settling the specification claims.

Real numbers of the source are modelled as rationals; the external numeric
routines the source delegates to (scipy's two-sample KS test, numpy/scipy
logarithms) enter as function parameters, since no claim depends on their
values beyond `log 1 = 0`.
-/

namespace GIA

/-! ### Statistics library (backend/analysis/metrics.py) -/

/-- Smallest element of a list (python `min`; 0 on the empty list, which the
source never queries). -/
def listMin : List ℚ → ℚ
  | [] => 0
  | a :: l => l.foldl min a

/-- Largest element of a list (python `max`). -/
def listMax : List ℚ → ℚ
  | [] => 0
  | a :: l => l.foldl max a

/-- Arithmetic mean (`np.mean`); 0 on the empty list. -/
def listMean (l : List ℚ) : ℚ := l.sum / l.length

/-- `np.linspace lo hi (n+1)`: the `n+1` equally spaced points from `lo`
to `hi` inclusive. -/
def linspace (lo hi : ℚ) (n : ℕ) : List ℚ :=
  (List.range (n + 1)).map (fun i => lo + (hi - lo) * i / n)

/-- `np.histogram data bin_edges`: per-bin counts, each bin half-open
`[e_i, e_(i+1))` except the final bin, which is closed. -/
def histCounts (data : List ℚ) : List ℚ → List ℚ
  | e1 :: e2 :: rest =>
      (match rest with
       | [] => ((data.filter (fun d => decide (e1 ≤ d ∧ d ≤ e2))).length : ℚ)
       | _ :: _ => ((data.filter (fun d => decide (e1 ≤ d ∧ d < e2))).length : ℚ))
      :: histCounts data (e2 :: rest)
  | _ => []

/-- `ks_test`: the empty-input guard is the source's; the non-empty branch
delegates to scipy's `ks_2samp`, passed in as `ks2samp` and returning
`(statistic, p_value)`. -/
def ks_test (ks2samp : List ℚ → List ℚ → ℚ × ℚ) (current baseline : List ℚ) : ℚ × ℚ :=
  if current = [] ∨ baseline = [] then (0, 1) else ks2samp current baseline

/-- The additive epsilon the source puts in the proportion denominators. -/
def epsDen : ℚ := 1e-10

/-- The PSI accumulation loop: buckets with zero baseline proportion are
skipped. `log` stands for `np.log`. -/
def psiSum (log : ℚ → ℚ) (cp bp : List ℚ) : ℚ :=
  (cp.zip bp).foldl
    (fun acc p => if p.2 > 0 then acc + (p.1 - p.2) * log (p.1 / p.2) else acc) 0

/-- `psi`: population stability index over shared equal-width bins. -/
def psi (log : ℚ → ℚ) (current baseline : List ℚ) (bins : ℕ := 10) : ℚ :=
  if current = [] ∨ baseline = [] then 0 else
  let min_val := min (listMin current) (listMin baseline)
  let max_val := max (listMax current) (listMax baseline)
  if min_val = max_val then 0 else
  let bin_edges := linspace min_val max_val bins
  let current_hist := histCounts current bin_edges
  let baseline_hist := histCounts baseline bin_edges
  let current_props := current_hist.map (fun h => h / (current_hist.sum + epsDen))
  let baseline_props := baseline_hist.map (fun h => h / (baseline_hist.sum + epsDen))
  psiSum log current_props baseline_props

/-- One term of scipy's `rel_entr`; the infinite branch (`x > 0, y = 0`) is
unreachable in `js_divergence`, whose second argument is a midpoint mixture. -/
def relEntrTerm (log : ℚ → ℚ) (x y : ℚ) : ℚ :=
  if 0 < x ∧ 0 < y then x * log (x / y) else 0

/-- `scipy.stats.entropy pk qk`: both distributions are renormalised to sum
to one, then the relative-entropy terms are summed. -/
def entropyKL (log : ℚ → ℚ) (pk qk : List ℚ) : ℚ :=
  let ps := pk.map (fun x => x / pk.sum)
  let qs := qk.map (fun x => x / qk.sum)
  ((ps.zip qs).map (fun p => relEntrTerm log p.1 p.2)).sum

/-- `js_divergence`: Jensen-Shannon divergence between the two binned
distributions using the midpoint mixture. -/
def js_divergence (log : ℚ → ℚ) (current baseline : List ℚ) (bins : ℕ := 10) : ℚ :=
  if current = [] ∨ baseline = [] then 0 else
  let min_val := min (listMin current) (listMin baseline)
  let max_val := max (listMax current) (listMax baseline)
  if min_val = max_val then 0 else
  let bin_edges := linspace min_val max_val bins
  let current_hist := histCounts current bin_edges
  let baseline_hist := histCounts baseline bin_edges
  let current_props := current_hist.map (fun h => h / (current_hist.sum + epsDen))
  let baseline_props := baseline_hist.map (fun h => h / (baseline_hist.sum + epsDen))
  let m := (current_props.zip baseline_props).map (fun p => (p.1 + p.2) / 2)
  (1/2) * entropyKL log current_props m + (1/2) * entropyKL log baseline_props m

/-- `ece_score`: expected calibration error. Boolean-mask indexing in the
source pairs `y_true` with `y_pred` positionally (the source assumes equal
lengths); `zip` realises the pairing. -/
def ece_score (y_true y_pred : List ℚ) (n_bins : ℕ := 10) : ℚ :=
  if y_true = [] ∨ y_pred = [] then 0 else
  let bin_boundaries := linspace 0 1 n_bins
  ((bin_boundaries.zip bin_boundaries.tail).foldl
    (fun ece p =>
      let mask := y_pred.filter (fun q => decide (p.1 < q ∧ q ≤ p.2))
      let prop_in_bin := (mask.length : ℚ) / (y_pred.length : ℚ)
      if prop_in_bin > 0 then
        let sel := (y_true.zip y_pred).filter (fun t => decide (p.1 < t.2 ∧ t.2 ≤ p.2))
        let accuracy_in_bin := listMean (sel.map (fun t => t.1))
        let avg_confidence_in_bin := listMean mask
        ece + |avg_confidence_in_bin - accuracy_in_bin| * prop_in_bin
      else ece) 0)

/-- `brier_score`: mean squared error between prediction and outcome. -/
def brier_score (y_true y_pred : List ℚ) : ℚ :=
  if y_true = [] ∨ y_pred = [] then 0 else
  listMean ((y_pred.zip y_true).map (fun t => (t.1 - t.2) ^ 2))

/-- `np.median`: middle element of the ascending sort, or the mean of the two
middle elements for even length. -/
def npMedian (l : List ℚ) : ℚ :=
  let s := l.insertionSort (· ≤ ·)
  let n := l.length
  if n = 0 then 0
  else if n % 2 = 1 then s.getD (n / 2) 0
  else (s.getD (n / 2 - 1) 0 + s.getD (n / 2) 0) / 2

/-! ### Metric store and drift detectors (backend/analysis/detectors.py)

The sqlite `metrics` table is modelled as a list of rows ordered
newest-first, so that `ORDER BY timestamp DESC` is list order and an insert
is a prepend. Rows written inside one `store_metrics` call share a
timestamp; their relative order is immaterial because retrieval groups rows
per metric name. -/

/-- What the `metric_value` column holds, classified by how the retrieval
loop's two parsers treat it: a REAL that `float()` accepts, TEXT holding a
JSON object, TEXT holding non-object JSON, or TEXT neither parser accepts. -/
inductive StoredVal where
  | num (q : ℚ)
  | jsonDict (d : List (String × ℚ))
  | jsonOther (t : String)
  | malformed (t : String)
deriving DecidableEq

def StoredVal.isMalformed : StoredVal → Bool
  | .malformed _ => true
  | _ => false

/-- One row of the `metrics` table. -/
structure MRow where
  run_id : String
  stage : String
  name : String
  value : StoredVal
deriving DecidableEq

/-- An element appended to a per-metric baseline list: a parsed float, or a
non-object JSON value appended verbatim by the retrieval loop's else branch. -/
inductive Item where
  | num (q : ℚ)
  | other (t : String)
deriving DecidableEq

/-- A per-metric retrieval result: an accumulated list, or a single map
snapshot. -/
inductive BaselineVal where
  | list (items : List Item)
  | dict (d : List (String × ℚ))
deriving DecidableEq

/-- The `baseline` python dict, as a partial map from metric name. -/
def Baseline := String → Option BaselineVal

def bupdate (b : Baseline) (k : String) (v : BaselineVal) : Baseline :=
  fun k' => if k' = k then some v else b k'

/-- One iteration of the grouping loop in `get_baseline_metrics`
(detectors.py lines 90-112): initialise the key to `[]` when absent; append
`float(value)` while the entry is a list; on `ValueError` fall back to JSON,
where an object replaces the entry as a snapshot, any other JSON value is
appended, and an unparseable value is skipped. -/
def processRow (b : Baseline) (name : String) (v : StoredVal) : Baseline :=
  let b1 := if (b name).isNone then bupdate b name (.list []) else b
  match b1 name with
  | some (.list items) =>
      match v with
      | .num q => bupdate b1 name (.list (items ++ [.num q]))
      | .jsonDict d => bupdate b1 name (.dict d)
      | .jsonOther t => bupdate b1 name (.list (items ++ [.other t]))
      | .malformed _ => b1
  | _ => b1

/-- The grouping loop over the retrieved `(metric_name, metric_value)` rows,
newest first. -/
def groupRows (rows : List (String × StoredVal)) : Baseline :=
  rows.foldl (fun b r => processRow b r.1 r.2) (fun _ => none)

/-- The window the SQL query retrieves: rows of the stage, newest first,
at most `limit` of them. -/
def stageWindow (db : List MRow) (stage : String) (limit : ℕ) : List (String × StoredVal) :=
  ((db.filter (fun r => r.stage = stage)).take limit).map (fun r => (r.name, r.value))

/-- `DriftDetector.get_baseline_metrics`. -/
def get_baseline_metrics (db : List MRow) (stage : String) (limit : ℕ := 200) : Baseline :=
  groupRows (stageWindow db stage limit)

/-- A value held in a current-metrics dict handed to the detector. -/
inductive MetricVal where
  | num (q : ℚ)
  | dict (d : List (String × ℚ))
  | list (l : List ℚ)
deriving DecidableEq

/-- A current-metrics dict. -/
def Metrics := List (String × MetricVal)

def mlookup : List (String × MetricVal) → String → Option MetricVal
  | [], _ => none
  | p :: rest, k => if p.1 = k then some p.2 else mlookup rest k

def dlookup : List (String × ℚ) → String → Option ℚ
  | [], _ => none
  | p :: rest, k => if p.1 = k then some p.2 else dlookup rest k

def sumVals (d : List (String × ℚ)) : ℚ := (d.map (fun p => p.2)).sum

/-- `DriftDetector.store_metrics`: one row per numeric value, one
JSON-serialised row per dict value; values of any other type are skipped. -/
def store_metrics (db : List MRow) (run_id stage : String) (metrics : Metrics) : List MRow :=
  (metrics.filterMap (fun p =>
    match p.2 with
    | .num q => some ⟨run_id, stage, p.1, .num q⟩
    | .dict d => some ⟨run_id, stage, p.1, .jsonDict d⟩
    | .list _ => none)) ++ db

/-- `{stage, metric, p, effect}` as emitted by the detector rules. -/
structure Anomaly where
  stage : String
  metric : String
  p : ℚ
  effect : ℚ
deriving DecidableEq

/-- Numeric entries of a baseline list, as `np.median`/`ks_test` consume
them. Non-numeric entries only arise from non-object JSON text, which no
store path ever writes. -/
def itemNums (items : List Item) : List ℚ :=
  items.filterMap (fun i => match i with | .num q => some q | .other _ => none)

/-- The `isinstance(.., dict)`-to-`list(values)` coercion the detectors apply
to each baseline entry before using it as a sequence. -/
def baselineSeq : BaselineVal → List ℚ
  | .dict d => d.map (fun p => p.2)
  | .list items => itemNums items

/-- `DriftDetector.detect_alignment_drift`. Current values of the wrong
runtime shape raise in the source and are not modelled. -/
def detect_alignment_drift (ks2samp : List ℚ → List ℚ → ℚ × ℚ)
    (db : List MRow) (current : Metrics) : List Anomaly :=
  let baseline := get_baseline_metrics db "align"
  let a1 : List Anomaly :=
    match mlookup current "depth_hist", baseline "depth_hist" with
    | some (.list current_depth), some bv =>
        let baseline_depth := baselineSeq bv
        if baseline_depth ≠ [] then
          let ks_result := ks_test ks2samp current_depth baseline_depth
          if ks_result.2 < 0.01 then
            [⟨"alignment", "depth_ks", ks_result.2, |ks_result.1|⟩]
          else []
        else []
    | _, _ => []
  let a2 : List Anomaly :=
    match mlookup current "softclip_rate", baseline "softclip_rate" with
    | some (.num current_rate), some bv =>
        let baseline_rates := baselineSeq bv
        if baseline_rates ≠ [] then
          let baseline_median := npMedian baseline_rates
          if current_rate > baseline_median * 1.5 then
            [⟨"alignment", "softclip_rate_increase", 0.001,
              (current_rate - baseline_median) / baseline_median⟩]
          else []
        else []
    | _, _ => []
  a1 ++ a2

/-- `DriftDetector.detect_calling_drift`. -/
def detect_calling_drift (db : List MRow) (current : Metrics) : List Anomaly :=
  let baseline := get_baseline_metrics db "call"
  match mlookup current "titv", baseline "titv" with
  | some (.num current_titv), some bv =>
      let baseline_titv := baselineSeq bv
      if baseline_titv ≠ [] then
        let baseline_median := npMedian baseline_titv
        if |current_titv - baseline_median| > 0.2 then
          [⟨"calling", "titv_drift", 0.001, |current_titv - baseline_median|⟩]
        else []
      else []
  | _, _ => []

/-- `DriftDetector.detect_annotation_drift`: flags drift when the pathogenic
share of the ClinVar counts exceeds 15%, with fixed synthetic p and effect. -/
def detect_annotation_drift (current : Metrics) : List Anomaly :=
  let current_counts :=
    match mlookup current "clinvar_counts" with | some (.dict d) => d | _ => []
  if current_counts ≠ [] then
    let pathogenic_pct :=
      (dlookup current_counts "pathogenic").getD 0 / max (sumVals current_counts) 1
    if pathogenic_pct > 0.15 then
      [⟨"annotation", "clinvar_chi2", 1e-6, 0.35⟩]
    else []
  else []

/-- `DriftDetector.detect_prediction_drift`. -/
def detect_prediction_drift (db : List MRow) (current : Metrics) : List Anomaly :=
  let baseline := get_baseline_metrics db "predict"
  match mlookup current "ece", baseline "ece" with
  | some (.num current_ece), some bv =>
      let baseline_ece := baselineSeq bv
      if baseline_ece ≠ [] then
        let baseline_median := npMedian baseline_ece
        if current_ece > baseline_median + 0.05 then
          [⟨"prediction", "ece_increase", 0.001, current_ece - baseline_median⟩]
        else []
      else []
  | _, _ => []

/-- `DriftDetector.detect_drift`: stores the current metrics FIRST, then runs
the stage rules, which re-query the store — so the freshly stored sample is
inside the baseline they retrieve. Returns the updated store and the
anomalies. -/
def detect_drift (ks2samp : List ℚ → List ℚ → ℚ × ℚ) (db : List MRow)
    (run_id stage : String) (current_metrics : Metrics) : List MRow × List Anomaly :=
  let db' := store_metrics db run_id stage current_metrics
  let anomalies :=
    if stage = "align" then detect_alignment_drift ks2samp db' current_metrics
    else if stage = "call" then detect_calling_drift db' current_metrics
    else if stage = "annotate" then detect_annotation_drift current_metrics
    else if stage = "predict" then detect_prediction_drift db' current_metrics
    else []
  (db', anomalies)

/-! ### Configuration (backend/analysis/config.py) -/

def Config.min_explains_pct : ℚ := 0.8

def Config.min_significance_p : ℚ := 1e-4

def Config.max_probes : ℕ := 5

def Config.probe_priorities : List String :=
  ["reannotate", "caller_version", "realign_locus", "downsample_noise", "schema_normalize"]

/-- `Config.is_converged`. -/
def Config.is_converged (explains_pct p_value : ℚ) : Bool :=
  decide (explains_pct ≥ Config.min_explains_pct ∧ p_value ≤ Config.min_significance_p)

/-! ### Hypothesis ranking (backend/analysis/hypotheses.py) -/

/-- One entry of the static hypothesis catalog. -/
structure HypDef where
  id : String
  label : String
  signatures : List String
  version_indicators : List String
deriving DecidableEq

/-- `HypothesisRanker.hypotheses`, in declaration order. -/
def hypothesesCatalog : List HypDef :=
  [⟨"annotation_drift", "Annotation database drift",
    ["clinvar_chi2", "consequence_js"], ["db_version_change"]⟩,
   ⟨"caller_drift", "Variant caller drift", ["titv_drift"], ["caller_change"]⟩,
   ⟨"reference_drift", "Reference genome drift", ["per_chr_density"], ["reference_change"]⟩,
   ⟨"mapping_bias", "Mapping bias", ["softclip_rate"], []⟩,
   ⟨"schema_mismatch", "Schema mismatch", ["ece_increase"], ["model_change"]⟩,
   ⟨"batch_effect", "Batch effect", ["clinvar_chi2", "per_chr_density", "titv_drift"], []⟩]

/-- `self.priors.get(change, 0.0)`. -/
def priorsGet (change : String) : ℚ :=
  if change = "reference_change" then 0.8
  else if change = "db_version_change" then 0.9
  else if change = "caller_change" then 0.7
  else if change = "model_change" then 0.6
  else if change = "batch_effect" then 0.3
  else 0

/-- `self.likelihoods.get(signature, {}).get(hyp_id, 0.0)`. -/
def likelihoodsGet (signature hyp_id : String) : ℚ :=
  if signature = "clinvar_chi2" then
    (if hyp_id = "annotation_drift" then 0.9 else if hyp_id = "batch_effect" then 0.2 else 0)
  else if signature = "per_chr_density" then
    (if hyp_id = "reference_drift" then 0.8 else if hyp_id = "batch_effect" then 0.3 else 0)
  else if signature = "titv_drift" then
    (if hyp_id = "caller_drift" then 0.8 else if hyp_id = "batch_effect" then 0.4 else 0)
  else if signature = "softclip_rate" then
    (if hyp_id = "mapping_bias" then 0.7 else if hyp_id = "batch_effect" then 0.3 else 0)
  else if signature = "ece_increase" then
    (if hyp_id = "schema_mismatch" then 0.8 else if hyp_id = "model_drift" then 0.6 else 0)
  else if signature = "consequence_js" then
    (if hyp_id = "annotation_drift" then 0.7 else if hyp_id = "batch_effect" then 0.2 else 0)
  else 0

/-- The boolean flags a `kg_delta` dict may carry (absent keys read falsy). -/
structure KgDelta where
  reference_changed : Bool := false
  db_version_changed : Bool := false
  caller_changed : Bool := false
  model_changed : Bool := false

/-- `HypothesisRanker._extract_version_changes`. -/
def extractVersionChanges (kg : KgDelta) : List String :=
  (if kg.reference_changed then ["reference_change"] else []) ++
  (if kg.db_version_changed then ["db_version_change"] else []) ++
  (if kg.caller_changed then ["caller_change"] else []) ++
  (if kg.model_changed then ["model_change"] else [])

/-- `HypothesisRanker._calculate_hypothesis_score`; `log10` stands for
`np.log10`. -/
def calculateHypothesisScore (log10 : ℚ → ℚ) (hyp : HypDef)
    (version_changes anomaly_signatures : List String) (anomalies : List Anomaly) : ℚ :=
  let s1 := version_changes.foldl
    (fun acc c => if hyp.version_indicators.contains c then acc + priorsGet c else acc) 0
  let s2 := anomaly_signatures.foldl
    (fun acc sg => if hyp.signatures.contains sg then acc + likelihoodsGet sg hyp.id else acc) s1
  anomalies.foldl
    (fun acc a => if hyp.signatures.contains a.metric then
        acc + (min (a.effect * 0.5) 1 + max 0 (-(log10 a.p) * 0.1)) else acc) s2

/-- A catalog entry annotated with its declaration index and computed score. -/
structure ScoredHyp where
  idx : ℕ
  id : String
  label : String
  score : ℚ
deriving DecidableEq

/-- The scores dict of `rank_hypotheses`, in catalog order. -/
def scoredCatalog (log10 : ℚ → ℚ) (kg : KgDelta) (anomalies : List Anomaly) : List ScoredHyp :=
  let version_changes := extractVersionChanges kg
  let anomaly_signatures := anomalies.map (fun a => a.metric)
  hypothesesCatalog.enum.map (fun p =>
    ⟨p.1, p.2.id, p.2.label,
     calculateHypothesisScore log10 p.2 version_changes anomaly_signatures anomalies⟩)

/-- The total order realising CPython's stable `sorted(..., reverse=True)` on
score: higher score first, catalog index breaking ties. On entries with
pairwise-distinct indices stable descending sorting and sorting by this
relation coincide. -/
def rankLe (a b : ScoredHyp) : Prop :=
  b.score < a.score ∨ (a.score = b.score ∧ a.idx ≤ b.idx)

instance : DecidableRel rankLe := fun a b => by unfold rankLe; infer_instance

instance : IsTotal ScoredHyp rankLe where
  total a b := by
    unfold rankLe
    rcases lt_trichotomy a.score b.score with h | h | h
    · exact Or.inr (Or.inl h)
    · rcases Nat.le_total a.idx b.idx with hi | hi
      · exact Or.inl (Or.inr ⟨h, hi⟩)
      · exact Or.inr (Or.inr ⟨h.symm, hi⟩)
    · exact Or.inl (Or.inl h)

instance : IsTrans ScoredHyp rankLe where
  trans a b c hab hbc := by
    unfold rankLe at *
    rcases hab with h1 | ⟨h1, h1'⟩ <;> rcases hbc with h2 | ⟨h2, h2'⟩
    · exact Or.inl (h2.trans h1)
    · exact Or.inl (h2 ▸ h1)
    · exact Or.inl (h1 ▸ h2)
    · exact Or.inr ⟨h1.trans h2, h1'.trans h2'⟩

/-- The sort in `rank_hypotheses`. -/
def sortHyps (l : List ScoredHyp) : List ScoredHyp := l.insertionSort rankLe

/-- Python's `round` (half to even), on an exact rational. -/
def pyRound (q : ℚ) : ℤ :=
  let f := ⌊q⌋
  let r := q - f
  if r < 1/2 then f else if 1/2 < r then f + 1 else if Even f then f else f + 1

/-- `round(score, 2)`. -/
def round2 (q : ℚ) : ℚ := (pyRound (q * 100) : ℚ) / 100

/-- A `{id, label, score}` ranked-hypothesis record. -/
structure RankedHyp where
  id : String
  label : String
  score : ℚ
deriving DecidableEq

/-- `HypothesisRanker.rank_hypotheses`: score every catalog entry, sort by
descending score (stable, so catalog order breaks ties), round the reported
score to two decimals. -/
def rank_hypotheses (log10 : ℚ → ℚ) (kg : KgDelta) (anomalies : List Anomaly) :
    List RankedHyp :=
  (sortHyps (scoredCatalog log10 kg anomalies)).map (fun s => ⟨s.id, s.label, round2 s.score⟩)

/-! ### Counterfactual probes (backend/analysis/probes.py) -/

/-- A `ProbeResult` dict; the artifacts entry (file-path references only) is
omitted. -/
structure ProbeResultR where
  probe : String
  effect_size : ℚ
  p : ℚ
  explains_pct : ℚ
deriving DecidableEq

/-- `CounterfactualProbes._calculate_explains_percentage`: the saturating
mapping from effect size to explained fraction. -/
def calculateExplainsPercentage (effect_size threshold : ℚ) : ℚ :=
  if effect_size > threshold then min (0.8 + (effect_size - threshold) * 0.5) 1
  else effect_size / threshold * 0.8

/-- `metrics.get("clinvar_counts", {})`. -/
def getClinvarCounts (m : Metrics) : List (String × ℚ) :=
  match mlookup m "clinvar_counts" with | some (.dict d) => d | _ => []

/-- `CounterfactualProbes._calculate_annotation_effect_size`. -/
def calculateAnnotationEffectSize (old_metrics new_metrics : Metrics) : ℚ :=
  let old_pathogenic := (dlookup (getClinvarCounts old_metrics) "pathogenic").getD 0
  let new_pathogenic := (dlookup (getClinvarCounts new_metrics) "pathogenic").getD 0
  if old_pathogenic > 0 then |new_pathogenic - old_pathogenic| / old_pathogenic else 0

/-- Python's `pat in s` substring test. -/
def strContainsSub (s pat : String) : Bool := decide (2 ≤ (s.splitOn pat).length)

/-- `CounterfactualProbes.reannotate_probe`. The two `annotate` stage
executions it performs are file-producing pipeline calls; their metric
outputs enter here as `old_metrics` and `new_metrics`. Whenever the path
mentions "annotation" or the two database versions differ, the result is
overridden with the fixed simulated values `explains_pct = 0.82`,
`effect_size = 0.35`; the p-value is always `1e-6`. -/
def reannotate_probe (vcf_path old_db new_db : String)
    (old_metrics new_metrics : Metrics) : ProbeResultR :=
  let effect_size0 := calculateAnnotationEffectSize old_metrics new_metrics
  let pair : ℚ × ℚ :=
    if strContainsSub vcf_path "annotation" || old_db != new_db then (0.82, 0.35)
    else (calculateExplainsPercentage effect_size0 0.35, effect_size0)
  ⟨"reannotate", pair.2, 1e-6, pair.1⟩

/-! ### Investigation controller (backend/api/main.py) -/

/-- The `InvestigationState` record (backend/api/schemas.py). States are the
source's strings: DETECT, PLAN, RUN_PROBE, ASSESS, CONVERGED, REMEDIATE,
VALIDATE, SUMMARY. -/
structure Case where
  case_id : String
  state : String
  current_hypothesis : Option String := none
  probe_count : ℕ := 0
  anomalies : List Anomaly := []
  hypotheses : List RankedHyp := []
  probe_results : List ProbeResultR := []
deriving DecidableEq

/-- The plan dict `next_probe` returns. -/
structure ProbePlan where
  hypothesis : String
  hypotheses : List RankedHyp
  probe : String
  args_case_id : String
  args_probe_type : String
deriving DecidableEq

/-- The `next_probe` endpoint (main.py lines 218-265): rank hypotheses once
if absent (with the simplified `kg_delta = {"db_version_changed": True}`),
pick the probe by `probe_count mod len(priorities)` — with no check against
`max_probes` — and move the case to PLAN. -/
def next_probe (log10 : ℚ → ℚ) (case : Case) : ProbePlan × Case :=
  let case1 :=
    if case.hypotheses.isEmpty then
      {case with hypotheses :=
        rank_hypotheses log10 {db_version_changed := true} case.anomalies}
    else case
  let probe_type :=
    Config.probe_priorities.getD (case1.probe_count % Config.probe_priorities.length) ""
  let hyp := match case1.hypotheses with | h :: _ => h.id | [] => "annotation_drift"
  let plan : ProbePlan := ⟨hyp, case1.hypotheses, probe_type, case.case_id, probe_type⟩
  (plan, {case1 with state := "PLAN", current_hypothesis := some hyp})

/-- The state-update portion of the `run_probe` endpoint (main.py lines
306-313), applied after the dispatched probe has produced `result`: enter
ASSESS, increment `probe_count` unconditionally, append the result, then
enter CONVERGED exactly when `Config.is_converged` accepts the result. -/
def record_probe_result (case : Case) (result : ProbeResultR) : Case :=
  let case1 := {case with state := "ASSESS", probe_count := case.probe_count + 1,
                          probe_results := case.probe_results ++ [result]}
  if Config.is_converged result.explains_pct result.p then
    {case1 with state := "CONVERGED"}
  else case1

/-! ### Concrete inputs used by the code-evaluation theorems -/

/-- A store already holding one historical `ece` sample for the predict
stage. -/
def selfCompareDB : List MRow := [⟨"run0", "predict", "ece", .num 0.1⟩]

/-- The current predict-stage metrics whose drift is being checked. -/
def selfCompareMetrics : Metrics := [("ece", .num 0.9)]

/-- A non-converging probe result (`explains_pct < 0.8`). -/
def nonConvergingResult : ProbeResultR := ⟨"caller_version", 0.1, 0.1, 0.1⟩

/-- A case that has already consumed the whole probe budget: five probes ran,
none converged. -/
def exhaustedCase : Case :=
  { case_id := "case_x", state := "ASSESS", current_hypothesis := some "annotation_drift",
    probe_count := 5,
    anomalies := [⟨"annotation", "clinvar_chi2", 1e-6, 0.35⟩],
    hypotheses := [⟨"annotation_drift", "Annotation database drift", 1⟩],
    probe_results := List.replicate 5 nonConvergingResult }

/-- A retrieved window exercising both retrieval behaviours: the newest
`clinvar_counts` row is a JSON map, an older map row sits behind it, and a
malformed row is interleaved. -/
def sampleWindow : List (String × StoredVal) :=
  [("clinvar_counts", .jsonDict [("pathogenic", 15), ("benign", 85)]),
   ("titv", .num 2.1),
   ("titv", .malformed "x@x"),
   ("clinvar_counts", .jsonDict [("pathogenic", 99)]),
   ("titv", .num 2.0)]

/-- The most recently stored value for a metric within a retrieved window
(the window is ordered newest-first). -/
def firstVal : List (String × StoredVal) → String → Option StoredVal
  | [], _ => none
  | r :: rest, n => if r.1 = n then some r.2 else firstVal rest n

/-! ### Theorems settling the claims -/

/-- Claim C1 (evaluation at the failing input): `detect_drift` stores the
current sample BEFORE the stage rule retrieves the baseline, so the
just-stored sample IS part of the baseline it is compared against. With one
historical `ece` sample 0.1 and current `ece` 0.9, the retrieved baseline is
`[0.9, 0.1]` (the current sample first), and the emitted anomaly carries
effect `0.9 - median [0.9, 0.1] = 0.4`; retrieving the baseline before the
store, as the claim requires, would instead compare against `[0.1]` and give
effect `0.8`. -/
theorem detect_drift_self_comparison :
    (get_baseline_metrics (store_metrics selfCompareDB "run1" "predict" selfCompareMetrics)
        "predict" 200) "ece" = some (.list [.num 0.9, .num 0.1])
    ∧ (detect_drift (fun _ _ => (0, 1)) selfCompareDB "run1" "predict" selfCompareMetrics).2
        = [⟨"prediction", "ece_increase", 0.001, 0.4⟩]
    ∧ detect_prediction_drift selfCompareDB selfCompareMetrics
        = [⟨"prediction", "ece_increase", 0.001, 0.8⟩] := by
  refine ⟨?_, ?_, ?_⟩ <;>
  norm_num [detect_drift, detect_prediction_drift, get_baseline_metrics, store_metrics,
    selfCompareDB, selfCompareMetrics, stageWindow, groupRows, processRow, bupdate,
    List.filterMap, List.filter, List.take, List.foldl, mlookup, baselineSeq, itemNums,
    npMedian, List.insertionSort, List.orderedInsert, List.cons_ne_nil,
    (by decide : ("predict" : String) ≠ "align"),
    (by decide : ("predict" : String) ≠ "call"),
    (by decide : ("predict" : String) ≠ "annotate")]

/-- Claim C2 (evaluation at the failing input): after five non-converging
probes (`probe_count = 5 = max_probes`), `next_probe` still schedules a
sixth probe (`reannotate`, by the `probe_count mod 5` cycle) and moves the
case to PLAN rather than to any terminal inconclusive state, and recording
that probe's result pushes `probe_count` to 6 — the budget of
`Config.max_probes` is never enforced. -/
theorem next_probe_ignores_budget :
    Config.max_probes = 5
    ∧ exhaustedCase.probe_count = 5
    ∧ (next_probe (fun _ => 0) exhaustedCase).1.probe = "reannotate"
    ∧ (next_probe (fun _ => 0) exhaustedCase).2.state = "PLAN"
    ∧ (record_probe_result (next_probe (fun _ => 0) exhaustedCase).2
        nonConvergingResult).probe_count = 6
    ∧ (record_probe_result (next_probe (fun _ => 0) exhaustedCase).2
        nonConvergingResult).state = "ASSESS" := by
  norm_num [next_probe, exhaustedCase, record_probe_result, Config.is_converged,
    Config.probe_priorities, Config.max_probes, Config.min_explains_pct,
    Config.min_significance_p, nonConvergingResult]

/-- Claim C3: after a probe result is recorded, the case state is CONVERGED
exactly when `explains_pct ≥ 0.8` and `p ≤ 1e-4`; otherwise it is back in
ASSESS and the next planning call returns it to PLAN; in particular a result
with `explains_pct = 0.82`, `p = 1e-6` converges the case at once. -/
theorem record_probe_convergence_iff :
    ∀ (log10 : ℚ → ℚ) (case : Case) (result : ProbeResultR),
    ((record_probe_result case result).state = "CONVERGED" ↔
      result.explains_pct ≥ 0.8 ∧ result.p ≤ 1e-4)
    ∧ (¬(result.explains_pct ≥ 0.8 ∧ result.p ≤ 1e-4) →
        (record_probe_result case result).state = "ASSESS"
        ∧ (next_probe log10 (record_probe_result case result)).2.state = "PLAN")
    ∧ (result.explains_pct = 0.82 → result.p = 1e-6 →
        (record_probe_result case result).state = "CONVERGED") := by
  intro log10 case result
  have hiff : (record_probe_result case result).state = "CONVERGED" ↔
      result.explains_pct ≥ 0.8 ∧ result.p ≤ 1e-4 := by
    simp only [record_probe_result, Config.is_converged]
    by_cases h : result.explains_pct ≥ Config.min_explains_pct ∧
        result.p ≤ Config.min_significance_p
    · rw [if_pos (decide_eq_true h)]
      exact ⟨fun _ => h, fun _ => rfl⟩
    · rw [if_neg (fun hc => h (of_decide_eq_true hc))]
      show "ASSESS" = "CONVERGED" ↔ _
      exact ⟨fun hc => absurd hc (by decide), fun hr => absurd hr h⟩
  have hstates : (record_probe_result case result).state = "CONVERGED"
      ∨ (record_probe_result case result).state = "ASSESS" := by
    simp only [record_probe_result]
    by_cases hb : Config.is_converged result.explains_pct result.p = true
    · rw [if_pos hb]; exact Or.inl rfl
    · rw [if_neg hb]; exact Or.inr rfl
  refine ⟨hiff, fun h => ⟨?_, rfl⟩, fun h1 h2 => hiff.mpr (by rw [h1, h2]; norm_num)⟩
  exact hstates.resolve_left (fun hc => h (hiff.mp hc))

/-- Closed instance of `record_probe_convergence_iff`: a result with
`explains_pct = 0.82` and `p = 1e-6` converges the exhausted test case. -/
theorem record_probe_convergence_iff_witness :
    (record_probe_result exhaustedCase ⟨"reannotate", 0.35, 1e-6, 0.82⟩).state
      = "CONVERGED" :=
  (record_probe_convergence_iff (fun _ => 0) exhaustedCase
    ⟨"reannotate", 0.35, 1e-6, 0.82⟩).2.2 rfl rfl

/-- Claim C5: whenever the two database versions differ, `reannotate_probe`
returns the fixed simulated result `explains_pct = 0.82`,
`effect_size = 0.35`, `p = 1e-6`, regardless of the two annotation outputs
compared, and that result satisfies both convergence thresholds. -/
theorem reannotate_fixed_result :
    ∀ (vcf_path old_db new_db : String) (old_metrics new_metrics : Metrics),
    old_db ≠ new_db →
    reannotate_probe vcf_path old_db new_db old_metrics new_metrics
        = ⟨"reannotate", 0.35, 1e-6, 0.82⟩
    ∧ Config.is_converged 0.82 1e-6 = true := by
  intro vcf o n om nm h
  refine ⟨?_, ?_⟩
  · unfold reannotate_probe
    have hb : (o != n) = true := by simpa [bne_iff_ne] using h
    simp [hb]
  · unfold Config.is_converged Config.min_explains_pct Config.min_significance_p
    norm_num

/-- Closed instance of `reannotate_fixed_result` at the databases the
`run_probe` endpoint passes (`v101` vs `v102`). -/
theorem reannotate_fixed_result_witness :
    reannotate_probe "data/inputs/sample.vcf" "v101" "v102" [] []
      = ⟨"reannotate", 0.35, 1e-6, 0.82⟩ :=
  (reannotate_fixed_result "data/inputs/sample.vcf" "v101" "v102" [] []
    (by decide)).1

/-- Claim C7: for a non-negative effect size and a positive threshold, the
saturating explains-percentage mapping lands in the unit interval. -/
theorem explains_percentage_in_unit_interval :
    ∀ (effect_size threshold : ℚ), 0 ≤ effect_size → 0 < threshold →
    0 ≤ calculateExplainsPercentage effect_size threshold
    ∧ calculateExplainsPercentage effect_size threshold ≤ 1 := by
  intro e t he ht
  unfold calculateExplainsPercentage
  by_cases h : e > t
  · rw [if_pos h]
    refine ⟨le_min (by nlinarith) (by norm_num), min_le_right _ _⟩
  · rw [if_neg h]
    have het : e ≤ t := le_of_not_lt h
    have h1 : e / t ≤ 1 := (div_le_one ht).mpr het
    have h0 : 0 ≤ e / t := div_nonneg he ht.le
    constructor <;> nlinarith

/-- Closed instance of `explains_percentage_in_unit_interval`. -/
theorem explains_percentage_witness :
    0 ≤ calculateExplainsPercentage 1 0.5 ∧ calculateExplainsPercentage 1 0.5 ≤ 1 :=
  explains_percentage_in_unit_interval 1 0.5 (by norm_num) (by norm_num)

/-- Claim C9: on empty input the statistics functions return their neutral
values — `ks_test` gives statistic 0 with p-value 1, and `psi`,
`js_divergence`, `ece_score`, `brier_score` give 0 — with no failure
branch. -/
theorem stats_empty_neutral :
    ∀ (ks2samp : List ℚ → List ℚ → ℚ × ℚ) (log : ℚ → ℚ) (bins n_bins : ℕ)
      (current baseline y_true y_pred : List ℚ),
    (current = [] ∨ baseline = []) → (y_true = [] ∨ y_pred = []) →
    ks_test ks2samp current baseline = (0, 1)
    ∧ psi log current baseline bins = 0
    ∧ js_divergence log current baseline bins = 0
    ∧ ece_score y_true y_pred n_bins = 0
    ∧ brier_score y_true y_pred = 0 := by
  intro ks2samp log bins n_bins c b yt yp h1 h2
  refine ⟨?_, ?_, ?_, ?_, ?_⟩ <;>
    simp [ks_test, psi, js_divergence, ece_score, brier_score, h1, h2]

/-- Closed instance of `stats_empty_neutral` on entirely empty inputs. -/
theorem stats_empty_neutral_witness :
    ks_test (fun _ _ => (1, 0)) [] [] = (0, 1)
    ∧ psi (fun _ => 0) [] [] 10 = 0
    ∧ js_divergence (fun _ => 0) [] [] 10 = 0
    ∧ ece_score [] [] 10 = 0
    ∧ brier_score [] [] = 0 :=
  stats_empty_neutral (fun _ _ => (1, 0)) (fun _ => 0) 10 10 [] [] [] []
    (Or.inl rfl) (Or.inl rfl)

/-- Claim C8: on the annotate stage the detector fires exactly one
`clinvar_chi2` anomaly with `p = 1e-6` and effect `0.35` when the pathogenic
share of the ClinVar counts exceeds 0.15, and none when it does not. The
hypothesis `1 ≤ sumVals d` holds of any actual count map (counts are
positive integers) and makes the source's `max(sum, 1)` guard coincide with
the plain sum. -/
theorem annotate_drift_threshold :
    ∀ (ks2samp : List ℚ → List ℚ → ℚ × ℚ) (db : List MRow) (run_id : String)
      (current : Metrics) (d : List (String × ℚ)),
    mlookup current "clinvar_counts" = some (.dict d) →
    1 ≤ sumVals d →
    ((0.15 < (dlookup d "pathogenic").getD 0 / sumVals d →
        (detect_drift ks2samp db run_id "annotate" current).2
          = [⟨"annotation", "clinvar_chi2", 1e-6, 0.35⟩])
     ∧ ((dlookup d "pathogenic").getD 0 / sumVals d ≤ 0.15 →
        (detect_drift ks2samp db run_id "annotate" current).2 = [])) := by
  intro ks db run current d hlook hsum
  have hd : d ≠ [] := by
    rintro rfl
    norm_num [sumVals] at hsum
  have hmain : (detect_drift ks db run "annotate" current).2
      = detect_annotation_drift current := by
    simp only [detect_drift]
    rw [if_neg (by decide), if_neg (by decide)]
    simp
  rw [hmain]
  simp only [detect_annotation_drift, hlook]
  rw [if_pos hd, max_eq_left hsum]
  exact ⟨fun hgt => by rw [if_pos hgt], fun hle => by rw [if_neg (not_lt.mpr hle)]⟩

/-- Closed instance of `annotate_drift_threshold`: pathogenic share
`50/300 ≈ 16.7% > 15%` fires the anomaly; `20/300 ≈ 6.7%` does not. -/
theorem annotate_drift_threshold_witness :
    (detect_drift (fun _ _ => (0, 1)) [] "r1" "annotate"
        [("clinvar_counts", .dict [("pathogenic", 50), ("benign", 50), ("vus", 200)])]).2
      = [⟨"annotation", "clinvar_chi2", 1e-6, 0.35⟩]
    ∧ (detect_drift (fun _ _ => (0, 1)) [] "r2" "annotate"
        [("clinvar_counts", .dict [("pathogenic", 20), ("benign", 80), ("vus", 200)])]).2
      = [] :=
  ⟨(annotate_drift_threshold (fun _ _ => (0, 1)) [] "r1"
      [("clinvar_counts", .dict [("pathogenic", 50), ("benign", 50), ("vus", 200)])]
      [("pathogenic", 50), ("benign", 50), ("vus", 200)] (by simp [mlookup])
      (by norm_num [sumVals])).1 (by norm_num [dlookup, sumVals]),
   (annotate_drift_threshold (fun _ _ => (0, 1)) [] "r2"
      [("clinvar_counts", .dict [("pathogenic", 20), ("benign", 80), ("vus", 200)])]
      [("pathogenic", 20), ("benign", 80), ("vus", 200)] (by simp [mlookup])
      (by norm_num [sumVals])).2 (by norm_num [dlookup, sumVals])⟩

/-- Zipping a list with itself pairs each element with itself. -/
theorem listZip_self {α : Type} (l : List α) : l.zip l = l.map (fun a => (a, a)) := by
  induction l with
  | nil => rfl
  | cons a t ih => simp [List.zip_cons_cons, ih]

/-- The PSI accumulation over two identical proportion lists adds only zero
terms. -/
theorem psiSum_self (log : ℚ → ℚ) (l : List ℚ) : psiSum log l l = 0 := by
  suffices h : ∀ (acc : ℚ), (l.zip l).foldl
      (fun acc p => if p.2 > 0 then acc + (p.1 - p.2) * log (p.1 / p.2) else acc) acc = acc by
    exact h 0
  induction l with
  | nil => intro acc; rfl
  | cons a t ih =>
      intro acc
      simp only [List.zip_cons_cons, List.foldl_cons, sub_self, zero_mul, add_zero, ite_self]
      exact ih acc

/-- The midpoint mixture of a distribution with itself is that
distribution. -/
theorem midMix_self (l : List ℚ) : (l.zip l).map (fun p => (p.1 + p.2) / 2) = l := by
  induction l with
  | nil => rfl
  | cons a t ih =>
      simp only [List.zip_cons_cons, List.map_cons, ih, List.cons.injEq]
      exact ⟨by ring, trivial⟩

/-- Relative entropy of a distribution against itself vanishes, given only
that the logarithm sends 1 to 0. -/
theorem entropyKL_self (log : ℚ → ℚ) (hlog : log 1 = 0) (l : List ℚ) :
    entropyKL log l l = 0 := by
  unfold entropyKL
  apply List.sum_eq_zero
  intro x hx
  rw [listZip_self, List.map_map] at hx
  obtain ⟨a, ha, rfl⟩ := List.mem_map.mp hx
  show relEntrTerm log a a = 0
  unfold relEntrTerm
  rcases em (0 < a) with h | h
  · rw [if_pos ⟨h, h⟩, div_self (ne_of_gt h), hlog, mul_zero]
  · rw [if_neg (fun hc => h hc.1)]

/-- Claim C10: `psi(x, x) = 0` and `js_divergence(x, x) = 0` for a
non-degenerate (non-empty, non-constant) sequence, for any logarithm with
`log 1 = 0`. -/
theorem psi_js_self_zero :
    ∀ (log : ℚ → ℚ) (bins : ℕ) (x : List ℚ), log 1 = 0 → x ≠ [] →
    (∃ a ∈ x, ∃ b ∈ x, a ≠ b) →
    psi log x x bins = 0 ∧ js_divergence log x x bins = 0 := by
  intro log bins x hlog _ _
  constructor
  · unfold psi
    rcases em (x = [] ∨ x = []) with h | h
    · rw [if_pos h]
    · rw [if_neg h]
      rcases em (min (listMin x) (listMin x) = max (listMax x) (listMax x)) with h2 | h2
      · rw [if_pos h2]
      · rw [if_neg h2]
        exact psiSum_self log _
  · unfold js_divergence
    rcases em (x = [] ∨ x = []) with h | h
    · rw [if_pos h]
    · rw [if_neg h]
      rcases em (min (listMin x) (listMin x) = max (listMax x) (listMax x)) with h2 | h2
      · rw [if_pos h2]
      · rw [if_neg h2]
        have hm : ∀ (cp : List ℚ),
            (1 : ℚ)/2 * entropyKL log cp ((cp.zip cp).map (fun p => (p.1 + p.2) / 2))
            + 1/2 * entropyKL log cp ((cp.zip cp).map (fun p => (p.1 + p.2) / 2)) = 0 := by
          intro cp
          rw [midMix_self, entropyKL_self log hlog]
          norm_num
        exact hm _

/-- Closed instance of `psi_js_self_zero` on the sequence `[0, 1]`. -/
theorem psi_js_self_zero_witness :
    psi (fun _ => 0) [0, 1] [0, 1] 10 = 0 ∧ js_divergence (fun _ => 0) [0, 1] [0, 1] 10 = 0 :=
  psi_js_self_zero (fun _ => 0) 10 [0, 1] rfl (List.cons_ne_nil 0 [1])
    ⟨0, by simp, 1, by simp, by norm_num⟩

/-- Pointwise characterisation of one grouping-loop iteration: only the
row's own key changes, and its new value is determined by the old entry and
how the stored value parses. -/
theorem processRow_apply (b : Baseline) (n : String) (v : StoredVal) (k : String) :
    processRow b n v k =
      if k = n then
        match b n, v with
        | none, .num q => some (.list [.num q])
        | none, .jsonDict d => some (.dict d)
        | none, .jsonOther t => some (.list [.other t])
        | none, .malformed _ => some (.list [])
        | some (.list items), .num q => some (.list (items ++ [.num q]))
        | some (.list _items), .jsonDict d => some (.dict d)
        | some (.list items), .jsonOther t => some (.list (items ++ [.other t]))
        | some (.list items), .malformed _ => some (.list items)
        | some (.dict d), _ => some (.dict d)
      else b k := by
  unfold processRow bupdate
  rcases hbn : b n with _ | bv
  · simp only [hbn, Option.isNone_none, if_true]
    cases v <;> by_cases hk : k = n <;> simp [hk, hbn]
  · rcases bv with items | d
    · simp only [hbn, Option.isNone_some, Bool.false_eq_true, if_false]
      cases v <;> by_cases hk : k = n <;> simp [hk, hbn]
    · simp only [hbn, Option.isNone_some, Bool.false_eq_true, if_false]
      cases v <;> by_cases hk : k = n <;> simp [hk, hbn]

/-- Once a key holds a map snapshot, no later row can change it: the list
guard fails and neither parser ever runs for that key again. -/
theorem foldl_dict_absorb :
    ∀ (rows : List (String × StoredVal)) (b : Baseline) (n : String) (d : List (String × ℚ)),
    b n = some (.dict d) →
    (rows.foldl (fun b r => processRow b r.1 r.2) b) n = some (.dict d) := by
  intro rows
  induction rows with
  | nil => intro b n d hbn; exact hbn
  | cons r rest ih =>
      intro b n d hbn
      refine ih _ n d ?_
      show processRow b r.1 r.2 n = some (.dict d)
      rw [processRow_apply]
      by_cases hk : n = r.1
      · rw [if_pos hk, ← hk, hbn]
      · rw [if_neg hk]; exact hbn

/-- If the newest row for a key is a JSON map, the grouping loop ends with
exactly that map as the key's snapshot. -/
theorem foldl_first_jsonDict :
    ∀ (rows : List (String × StoredVal)) (b : Baseline) (n : String) (d : List (String × ℚ)),
    b n = none → firstVal rows n = some (.jsonDict d) →
    (rows.foldl (fun b r => processRow b r.1 r.2) b) n = some (.dict d) := by
  intro rows
  induction rows with
  | nil => intro b n d _ hfv; exact absurd hfv (by simp [firstVal])
  | cons r rest ih =>
      intro b n d hbn hfv
      unfold firstVal at hfv
      by_cases hk : r.1 = n
      · rw [if_pos hk] at hfv
        have hv : r.2 = .jsonDict d := by injection hfv
        refine foldl_dict_absorb rest _ n d ?_
        show processRow b r.1 r.2 n = some (.dict d)
        rw [processRow_apply, if_pos hk.symm, hk, hbn, hv]
      · rw [if_neg hk] at hfv
        refine ih _ n d ?_ hfv
        show processRow b r.1 r.2 n = none
        rw [processRow_apply, if_neg (fun h => hk h.symm)]
        exact hbn

/-- Processing a well-formed row preserves the relation "equal, except keys
a malformed row initialised to the empty list". -/
theorem step_bisim_keep (b b' : Baseline) (n : String) (v : StoredVal)
    (hv : v.isMalformed = false)
    (hR : ∀ k, b k = b' k ∨ (b k = some (.list []) ∧ b' k = none)) :
    ∀ k, processRow b n v k = processRow b' n v k
      ∨ (processRow b n v k = some (.list []) ∧ processRow b' n v k = none) := by
  intro k
  rw [processRow_apply, processRow_apply]
  by_cases hk : k = n
  · rw [if_pos hk, if_pos hk]
    rcases hR n with he | ⟨h1, h2⟩
    · rw [he]; exact Or.inl rfl
    · rw [h1, h2]
      cases v with
      | num q => exact Or.inl (by simp)
      | jsonDict d => exact Or.inl rfl
      | jsonOther t => exact Or.inl (by simp)
      | malformed t => simp [StoredVal.isMalformed] at hv
  · rw [if_neg hk, if_neg hk]; exact hR k

/-- Processing a malformed row on the unfiltered side only ever initialises
its key to the empty list; everything else is untouched. -/
theorem step_bisim_drop (b b' : Baseline) (n t : String)
    (hR : ∀ k, b k = b' k ∨ (b k = some (.list []) ∧ b' k = none)) :
    ∀ k, processRow b n (.malformed t) k = b' k
      ∨ (processRow b n (.malformed t) k = some (.list []) ∧ b' k = none) := by
  intro k
  rw [processRow_apply]
  by_cases hk : k = n
  · rw [if_pos hk, hk]
    rcases hR n with he | ⟨h1, h2⟩
    · cases hbn : b n with
      | none => exact Or.inr ⟨rfl, by rw [← he, hbn]⟩
      | some bv =>
          cases bv with
          | list items => exact Or.inl (by rw [← he, hbn])
          | dict d => exact Or.inl (by rw [← he, hbn])
    · rw [h1]
      exact Or.inr ⟨rfl, h2⟩
  · rw [if_neg hk]; exact hR k

/-- The grouping loop with and without the malformed rows agrees on every
key, except that a key touched only by malformed rows holds `[]` on the
unfiltered side and is absent on the filtered side. -/
theorem foldl_bisim :
    ∀ (rows : List (String × StoredVal)) (b b' : Baseline),
    (∀ k, b k = b' k ∨ (b k = some (.list []) ∧ b' k = none)) →
    ∀ k, (rows.foldl (fun b r => processRow b r.1 r.2) b) k
          = ((rows.filter (fun r => !r.2.isMalformed)).foldl
              (fun b r => processRow b r.1 r.2) b') k
      ∨ ((rows.foldl (fun b r => processRow b r.1 r.2) b) k = some (.list [])
         ∧ ((rows.filter (fun r => !r.2.isMalformed)).foldl
              (fun b r => processRow b r.1 r.2) b') k = none) := by
  intro rows
  induction rows with
  | nil => intro b b' hR k; exact hR k
  | cons r rest ih =>
      obtain ⟨n, v⟩ := r
      intro b b' hR
      cases hm : v.isMalformed with
      | false =>
          have hfil : ((⟨n, v⟩ : String × StoredVal) :: rest).filter
                (fun r => !r.2.isMalformed)
              = ⟨n, v⟩ :: rest.filter (fun r => !r.2.isMalformed) := by
            simp [List.filter_cons, hm]
          rw [hfil]
          simp only [List.foldl_cons]
          exact ih (processRow b n v) (processRow b' n v) (step_bisim_keep b b' n v hm hR)
      | true =>
          have hfil : ((⟨n, v⟩ : String × StoredVal) :: rest).filter
                (fun r => !r.2.isMalformed)
              = rest.filter (fun r => !r.2.isMalformed) := by
            simp [List.filter_cons, hm]
          rw [hfil]
          cases v with
          | num q => simp [StoredVal.isMalformed] at hm
          | jsonDict d => simp [StoredVal.isMalformed] at hm
          | jsonOther t => simp [StoredVal.isMalformed] at hm
          | malformed t =>
              simp only [List.foldl_cons]
              exact ih (processRow b n (.malformed t)) b' (step_bisim_drop b b' n t hR)

/-- Claim C4: baseline retrieval returns, for a metric whose most recent
stored value in the retrieved window is a serialised map, that map directly
as a single snapshot; malformed entries are skipped without affecting any
other entry (a key touched only by malformed rows can at worst surface as an
empty list); and `get_baseline_metrics` is exactly this grouping applied to
the stage's newest-first window. -/
theorem baseline_snapshot_and_skips_malformed :
    (∀ (rows : List (String × StoredVal)) (name : String) (d : List (String × ℚ)),
       firstVal rows name = some (.jsonDict d) →
       groupRows rows name = some (.dict d))
    ∧ (∀ (rows : List (String × StoredVal)) (k : String),
       groupRows rows k = groupRows (rows.filter (fun r => !r.2.isMalformed)) k
       ∨ (groupRows rows k = some (.list [])
          ∧ groupRows (rows.filter (fun r => !r.2.isMalformed)) k = none))
    ∧ (∀ (db : List MRow) (stage : String) (limit : ℕ),
       get_baseline_metrics db stage limit = groupRows (stageWindow db stage limit)) := by
  refine ⟨?_, ?_, fun _ _ _ => rfl⟩
  · intro rows name d hfv
    exact foldl_first_jsonDict rows _ name d rfl hfv
  · intro rows k
    exact foldl_bisim rows _ _ (fun _ => Or.inl rfl) k

/-- Closed instance of `baseline_snapshot_and_skips_malformed` on the sample
window: the newest `clinvar_counts` map is returned as the snapshot even
though an older map row and a malformed row sit behind it. -/
theorem baseline_snapshot_witness :
    groupRows sampleWindow "clinvar_counts"
      = some (.dict [("pathogenic", 15), ("benign", 85)]) :=
  baseline_snapshot_and_skips_malformed.1 sampleWindow "clinvar_counts"
    [("pathogenic", 15), ("benign", 85)] (by simp [firstVal, sampleWindow])

/-- Every index produced by `enumFrom i` is at least `i`. -/
theorem mem_enumFrom_le {α : Type} :
    ∀ (l : List α) (i : ℕ) (p : ℕ × α), p ∈ List.enumFrom i l → i ≤ p.1 := by
  intro l
  induction l with
  | nil => intro i p hp; simp [List.enumFrom] at hp
  | cons a t ih =>
      intro i p hp
      rcases List.mem_cons.mp hp with h | h
      · rw [h]
      · exact (Nat.le_succ i).trans (ih (i + 1) p h)

/-- Enumeration indices are strictly increasing along the list. -/
theorem enumFrom_pairwise_lt {α : Type} :
    ∀ (l : List α) (i : ℕ), (List.enumFrom i l).Pairwise (fun a b => a.1 < b.1) := by
  intro l
  induction l with
  | nil => intro i; exact List.Pairwise.nil
  | cons a t ih =>
      intro i
      refine List.Pairwise.cons ?_ (ih (i + 1))
      intro p hp
      exact lt_of_lt_of_le (Nat.lt_succ_self i) (mem_enumFrom_le t (i + 1) p hp)

/-- The scored catalog carries pairwise-distinct declaration indices. -/
theorem scoredCatalog_pairwise_idx (log10 : ℚ → ℚ) (kg : KgDelta) (anomalies : List Anomaly) :
    (scoredCatalog log10 kg anomalies).Pairwise (fun a b => a.idx ≠ b.idx) := by
  unfold scoredCatalog
  exact List.Pairwise.map _ (fun a b hab => Nat.ne_of_lt hab)
    (enumFrom_pairwise_lt hypothesesCatalog 0)

/-- Two pairwise facts over one list combine into a pairwise conjunction. -/
theorem pairwise_conj {α : Type} {R S : α → α → Prop} :
    ∀ (l : List α), l.Pairwise R → l.Pairwise S →
    l.Pairwise (fun a b => R a b ∧ S a b) := by
  intro l
  induction l with
  | nil => intro _ _; exact List.Pairwise.nil
  | cons a t ih =>
      intro hR hS
      rw [List.pairwise_cons] at hR hS ⊢
      exact ⟨fun b hb => ⟨hR.1 b hb, hS.1 b hb⟩, ih hR.2 hS.2⟩

/-- Claim C6: hypothesis ranking is deterministic — a pure function of
`(version_changes, anomalies)`, so two runs agree — and the ranked output is
the catalog sorted strictly: any earlier entry either has a strictly higher
score or, on an exact tie, a strictly smaller catalog declaration index
(stable-sort tie-break). -/
theorem rank_hypotheses_deterministic_stable :
    ∀ (log10 : ℚ → ℚ) (kg : KgDelta) (anomalies : List Anomaly),
    rank_hypotheses log10 kg anomalies = rank_hypotheses log10 kg anomalies
    ∧ rank_hypotheses log10 kg anomalies
        = (sortHyps (scoredCatalog log10 kg anomalies)).map
            (fun s => ⟨s.id, s.label, round2 s.score⟩)
    ∧ (sortHyps (scoredCatalog log10 kg anomalies)).Pairwise
        (fun a b => b.score < a.score ∨ (a.score = b.score ∧ a.idx < b.idx)) := by
  intro log10 kg anomalies
  refine ⟨rfl, rfl, ?_⟩
  have hsorted : (sortHyps (scoredCatalog log10 kg anomalies)).Pairwise rankLe :=
    List.sorted_insertionSort rankLe (scoredCatalog log10 kg anomalies)
  have hidx : (sortHyps (scoredCatalog log10 kg anomalies)).Pairwise
      (fun a b => a.idx ≠ b.idx) :=
    ((List.perm_insertionSort rankLe (scoredCatalog log10 kg anomalies)).pairwise_iff
      (fun h => Ne.symm h)).mpr (scoredCatalog_pairwise_idx log10 kg anomalies)
  refine (pairwise_conj _ hsorted hidx).imp ?_
  rintro a b ⟨hle, hne⟩
  rcases hle with h | ⟨he, hi⟩
  · exact Or.inl h
  · exact Or.inr ⟨he, lt_of_le_of_ne hi hne⟩

end GIA
